import Mathlib

/-!
# Verification of the RecallBricks context-retrieval core

Shallow embedding of the lexical context pipeline (`src/routes/context.ts`)
and the memories routes (vector search, text-only context, creation).
External collaborators (Supabase store, OpenAI embedding/extraction) are
passed in as oracle functions returning `Except`; JS floating-point
arithmetic is modelled over `ℚ`; machine strings are Lean `String`s
(sequences of characters).
-/

namespace RecallBricks

/-- JS truthiness test for an optional string request field:
`undefined` and the empty string are falsy. -/
def jsFalsyStr : Option String → Bool
  | none => true
  | some s => s.isEmpty

/-- JS `s || fallback` for strings: the fallback replaces an empty string. -/
def jsOrStr (s fallback : String) : String :=
  if s.isEmpty then fallback else s

/-- JS `s || fallback` where `s` is an optional string field. -/
def jsOrStrOpt (s : Option String) (fallback : String) : String :=
  match s with
  | none => fallback
  | some v => if v.isEmpty then fallback else v

/-- JS `limit || 10` (`context.ts` lines 79 and 113): any falsy limit
(absent, `0`) is replaced by 10. -/
def jsLimitOr10 : Option Nat → Nat
  | none => 10
  | some 0 => 10
  | some n => n

/-! ## Keyword extraction (`context.ts` lines 48–66) -/

/-- JS `toLowerCase()`, character by character over the string's data. -/
def jsToLower (s : String) : String := String.mk (s.data.map Char.toLower)

/-- The regex class `\w`: ASCII letters, digits, underscore. -/
def jsWordChar (c : Char) : Bool := c.isAlphanum || c == '_'

/-- The regex class `\s` (ASCII fragment). -/
def jsSpaceChar (c : Char) : Bool :=
  c == ' ' || c == '\t' || c == '\n' || c == '\r' || c == '\x0b' || c == '\x0c'

/-- `.replace(/[^\w\s]/g, ' ')` on a single character. -/
def normalizeChar (c : Char) : Char :=
  if jsWordChar c || jsSpaceChar c then c else ' '

/-- Split a character list at whitespace runs.  JS `split(/\s+/)` can emit one
leading empty token; the length filter below discards empty tokens either way,
so dropping them at split time embeds the composed JS pipeline faithfully. -/
def splitTokensGo : List Char → List Char → List String
  | [], acc => if acc.isEmpty then [] else [String.mk acc.reverse]
  | c :: cs, acc =>
    if jsSpaceChar c then
      if acc.isEmpty then splitTokensGo cs []
      else String.mk acc.reverse :: splitTokensGo cs []
    else splitTokensGo cs (c :: acc)

/-- `.toLowerCase().replace(/[^\w\s]/g, ' ').split(/\s+/)`. -/
def tokenize (s : String) : List String :=
  splitTokensGo ((jsToLower s).data.map normalizeChar) []

/-- The stop-word set of `context.ts` line 48. -/
def stopWords : List String :=
  ["the", "a", "an", "and", "or", "but", "in", "on", "at", "to", "for",
   "of", "with", "by", "from", "is", "was", "are", "were", "been", "be",
   "have", "has", "had", "do", "does", "did", "will", "would", "could",
   "should", "can", "may", "might", "what", "when", "where", "who", "how",
   "why", "this", "that", "these", "those"]

/-- `word.length > 2 && !stopWords.has(word)`. -/
def tokenKeep (w : String) : Bool :=
  decide (2 < w.length) && !(stopWords.contains w)

/-- Normalize, split and filter one input string. -/
def extractFrom (s : String) : List String :=
  (tokenize s).filter tokenKeep

/-- Keyword extraction of the `POST /context` handler: first 10 surviving
query tokens, plus up to 5 tokens from the last 3 history entries joined by
spaces, appended without deduplication. -/
def extractKeywords (query : String) (history : Option (List String)) : List String :=
  let primary := (extractFrom query).take 10
  match history with
  | none => primary
  | some h =>
    if 0 < h.length then
      primary ++ (extractFrom (String.intercalate " " (h.drop (h.length - 3)))).take 5
    else primary

/-! ## Relevance scoring (`context.ts` lines 89–103) -/

/-- JS `hay.includes(needle)`: substring containment. -/
def jsIncludes (hay needle : String) : Bool :=
  decide (needle.data <:+: hay.data)

/-- `(Date.now() - new Date(created_at).getTime()) / (1000*60*60*24)`;
timestamps in milliseconds, arithmetic over `ℚ`. -/
def daysOld (created now : Int) : ℚ :=
  ((now - created : Int) : ℚ) / 86400000

/-- `Math.max(0, 5 - daysOld * 0.1)` (line 100). -/
def recencyBonus (d : ℚ) : ℚ :=
  max 0 (5 - d * (1 / 10))

/-- The relevance score: 10 per keyword-list entry that occurs in the
lowercased memory text (entries counted with multiplicity, exactly as the
`forEach` loop does), plus the recency bonus. -/
def relevanceScore (keywords : List String) (text : String) (created now : Int) : ℚ :=
  10 * ((keywords.filter (fun k => jsIncludes (jsToLower text) k)).length : ℚ)
    + recencyBonus (daysOld created now)

/-- Modelled from the spec's words, for comparison with `relevanceScore`:
"10 × (number of **distinct** extracted keywords that appear as a
case-insensitive substring of the memory's text) + recency bonus". -/
def specRelevanceScore (keywords : List String) (text : String) (created now : Int) : ℚ :=
  10 * ((keywords.dedup.filter (fun k => jsIncludes (jsToLower text) k)).length : ℚ)
    + recencyBonus (daysOld created now)

/-! ## Data model -/

/-- A stored memory row, as read back from the store. -/
structure Memory where
  id : String
  user_id : String
  text : String
  source : String
  project_id : String
  tags : List String
  created_at : Int
deriving DecidableEq

/-- Body of `POST /context` (`ContextRequest` in `types/recallbricks.ts`). -/
structure ContextRequest where
  query : Option String
  llm : Option String
  limit : Option Nat
  project_id : Option String
  conversation_history : Option (List String)
deriving DecidableEq

/-- The lexical store query built by the handler (owner scope, websearch
expression, recency order, fetch cap, optional project filter). -/
structure StoreQuery where
  user_id : String
  searchQuery : String
  limit : Nat
  project_id : Option String
deriving DecidableEq

/-- `keywords.join(' | ')` plus the filters of `context.ts` lines 70–83. -/
def buildStoreQuery (uid : String) (req : ContextRequest) : StoreQuery :=
  { user_id := uid
    searchQuery := String.intercalate " | "
      (extractKeywords (req.query.getD "") req.conversation_history)
    limit := jsLimitOr10 req.limit
    project_id := if jsFalsyStr req.project_id then none else req.project_id }

/-- Value of the JS expression `llm && sources.size > 1 && !sources.has(llm)`:
a boolean only when `llm` is truthy; otherwise the falsy `llm` value itself
(`undefined`, which `res.json` omits, or the empty string). -/
inductive CrossVal where
  | undef
  | emptyStr
  | bool (b : Bool)
deriving DecidableEq

/-- The `source` column of a scored result list. -/
def sourcesOf (l : List (Memory × ℚ)) : List String :=
  l.map (fun m => m.1.source)

/-- `context.ts` lines 107–108. -/
def crossLLMVal (llm : Option String) (ranked : List (Memory × ℚ)) : CrossVal :=
  match llm with
  | none => .undef
  | some s =>
    if s.isEmpty then .emptyStr
    else .bool (decide (1 < (sourcesOf ranked).dedup.length)
                  && !((sourcesOf ranked).contains s))

/-- `scoredMemories.sort((a, b) => b.relevance_score - a.relevance_score)`:
JS `Array.sort` is a stable sort under the comparator, modelled by the
stable `List.mergeSort` keyed on score descending. -/
def jsSortByScoreDesc (l : List (Memory × ℚ)) : List (Memory × ℚ) :=
  l.mergeSort (fun a b => decide (b.2 ≤ a.2))

/-- Error envelope `{error, message}`. -/
structure ErrBody where
  error : String
  message : String
deriving DecidableEq

/-- The `intelligence` block of the enriched response. -/
structure Intelligence where
  keyword_extraction : Bool
  relevance_scoring : Bool
  conversation_context : Bool
deriving DecidableEq

/-- The enriched `POST /context` success body (`context.ts` lines 110–122). -/
structure ContextOk where
  query : String
  keywords_extracted : List String
  memories : List (Memory × ℚ)
  count : Nat
  crossLLM : CrossVal
  llm : String
  intelligence : Intelligence
deriving DecidableEq

/-- `POST /context` response. -/
inductive ContextResponse where
  | ok (body : ContextOk)
  | err (status : Nat) (body : ErrBody)
deriving DecidableEq

/-- The `keywords` const of the handler (query plus optional history). -/
def lexicalKeywords (req : ContextRequest) : List String :=
  extractKeywords (req.query.getD "") req.conversation_history

/-- The sorted `scoredMemories` list of the handler (lines 89–105). -/
def lexicalRanked (req : ContextRequest) (data : List Memory) (now : Int) :
    List (Memory × ℚ) :=
  jsSortByScoreDesc (data.map (fun mem =>
    (mem, relevanceScore (lexicalKeywords req) mem.text mem.created_at now)))

/-- The success body of `POST /context` (lines 110–122). -/
def lexicalOkBody (req : ContextRequest) (data : List Memory) (now : Int) : ContextOk :=
  { query := req.query.getD ""
    keywords_extracted := lexicalKeywords req
    memories := (lexicalRanked req data now).take (jsLimitOr10 req.limit)
    count := (lexicalRanked req data now).length
    crossLLM := crossLLMVal req.llm (lexicalRanked req data now)
    llm := jsOrStrOpt req.llm "unknown"
    intelligence := ⟨true, true, req.conversation_history.isSome⟩ }

/-- The `POST /context` handler (`context.ts` lines 34–130), with the store
call passed in as an oracle from the built query to its outcome. -/
def contextHandler (uid : String) (req : ContextRequest)
    (store : StoreQuery → Except String (List Memory)) (now : Int) : ContextResponse :=
  if jsFalsyStr req.query then
    .err 400 ⟨"Bad Request", "Query is required."⟩
  else
    match store (buildStoreQuery uid req) with
    | .error m => .err 500 ⟨"Internal Server Error", jsOrStr m "Failed to recall context."⟩
    | .ok data => .ok (lexicalOkBody req data now)

/-! ## Memories routes (`routes/memories.ts`) -/

/-- Body of `POST /memories`. -/
structure CreateMemoryRequest where
  text : Option String
  source : Option String
  project_id : Option String
  tags : Option (List String)
deriving DecidableEq

/-- The row inserted into the store by `POST /memories`. -/
structure NewMemoryRow where
  user_id : String
  text : String
  source : String
  project_id : String
  tags : List String
  original_text : String
  embedding : List ℚ
deriving DecidableEq

/-- `POST /memories` response. -/
inductive MemResponse where
  | created (m : Memory)
  | err (status : Nat) (body : ErrBody)
deriving DecidableEq

/-- `extractKeyInfo` (memories route, lines 21–46): the OpenAI chat call is
an oracle; on failure, or on an empty reply, the original text is returned
(`return extracted || text` inside a try/catch). -/
def extractKeyInfo (text : String) (llmO : Except String String) : String :=
  match llmO with
  | .error _ => text
  | .ok e => jsOrStr e text

/-- The `POST /memories` handler (lines 82–131): validation, key-info
extraction, embedding generation (`generateEmbedding` rethrows provider
errors), insertion. -/
def createMemoryHandler (uid : String) (req : CreateMemoryRequest)
    (llmO : Except String String)
    (embedO : String → Except String (List ℚ))
    (insertO : NewMemoryRow → Except String Memory) : MemResponse :=
  if jsFalsyStr req.text then
    .err 400 ⟨"Bad Request", "Text is required."⟩
  else
    let text := req.text.getD ""
    let extractedText := extractKeyInfo text llmO
    match embedO extractedText with
    | .error m => .err 500 ⟨"Internal Server Error", jsOrStr m "Failed to create memory."⟩
    | .ok embedding =>
      match insertO { user_id := uid
                      text := extractedText
                      source := jsOrStrOpt req.source "api"
                      project_id := jsOrStrOpt req.project_id "default"
                      tags := req.tags.getD []
                      original_text := text
                      embedding := embedding } with
      | .error m => .err 500 ⟨"Internal Server Error", jsOrStr m "Failed to create memory."⟩
      | .ok data => .created data

/-- Response of the vector search endpoints. -/
inductive SearchResponse where
  | ok (memories : List Memory) (count : Nat) (q : String)
  | err (status : Nat) (body : ErrBody)
deriving DecidableEq

/-- The `GET /memories/search` handler (lines 181–219): embed the query,
then call the `match_memories` RPC.  `POST /memories/search` is
character-identical except for the validation message. -/
def searchHandler (uid : String) (q : Option String) (limO : Option Nat)
    (embedO : String → Except String (List ℚ))
    (rpcO : List ℚ → Nat → String → Except String (List Memory)) : SearchResponse :=
  if jsFalsyStr q then
    .err 400 ⟨"Bad Request", "Query parameter \x22q\x22 is required."⟩
  else
    let s := q.getD ""
    match embedO s with
    | .error m => .err 500 ⟨"Internal Server Error", jsOrStr m "Failed to search memories."⟩
    | .ok emb =>
      match rpcO emb (limO.getD 10) uid with
      | .error m => .err 500 ⟨"Internal Server Error", jsOrStr m "Failed to search memories."⟩
      | .ok data => .ok data data.length s

/-- Response of the text-only context endpoints. -/
inductive TextContextResponse where
  | ok (context : List String) (count : Nat)
  | okAll (context : List String) (count : Nat) (limit : Nat) (offset : Nat)
  | err (status : Nat) (body : ErrBody)
deriving DecidableEq

/-- The `GET /memories/context` handler (lines 267–307): vector search,
then projection to the `text` field only. -/
def memContextHandler (uid : String) (q : Option String) (limO : Option Nat)
    (embedO : String → Except String (List ℚ))
    (rpcO : List ℚ → Nat → String → Except String (List Memory)) : TextContextResponse :=
  if jsFalsyStr q then
    .err 400 ⟨"Bad Request", "Query parameter \x22q\x22 is required."⟩
  else
    match embedO (q.getD "") with
    | .error m => .err 500 ⟨"Internal Server Error", jsOrStr m "Failed to generate context."⟩
    | .ok emb =>
      match rpcO emb (limO.getD 10) uid with
      | .error m => .err 500 ⟨"Internal Server Error", jsOrStr m "Failed to generate context."⟩
      | .ok data => .ok (data.map (·.text)) (data.map (·.text)).length

/-- The `GET /memories/context/all` handler (lines 313–347): recency-ordered
`range(offset, offset+limit-1)` fetch (an oracle taking offset and limit),
then projection to `text`.  Defaults: `limit = 100`, `offset = 0`. -/
def memContextAllHandler (uid : String) (limO offO : Option Nat)
    (store : Nat → Nat → Except String (List Memory)) : TextContextResponse :=
  let lim := limO.getD 100
  let off := offO.getD 0
  match store off lim with
  | .error m => .err 500 ⟨"Internal Server Error", jsOrStr m "Failed to retrieve all context."⟩
  | .ok data =>
    let context := data.map (·.text)
    .okAll context context.length lim off

/-! ## Theorems -/

/-- Every token surviving `extractFrom` passed the length/stop-word filter. -/
lemma tokenKeep_of_mem_extractFrom {s : String} {k : String}
    (h : k ∈ extractFrom s) : 2 < k.length ∧ stopWords.contains k = false := by
  have hk : tokenKeep k = true := List.of_mem_filter h
  simp only [tokenKeep, Bool.and_eq_true, decide_eq_true_eq, Bool.not_eq_true'] at hk
  exact hk

/-- C3: keyword extraction produces an ordered list of at most 15
keywords (≤ 10 from the query, ≤ 5 from the last 3 history entries,
appended without deduplication); no token of length ≤ 2 and no stop-word
ever appears; and the query "I prefer dark mode and decided to use
PostgreSQL" yields keywords including prefer, dark, mode, decided,
postgresql. -/
theorem extractKeywords_bounded_and_filtered :
    (∀ q h, (extractKeywords q h).length ≤ 15) ∧
    (∀ q h k, k ∈ extractKeywords q h →
      2 < k.length ∧ stopWords.contains k = false) ∧
    (∀ w, w ∈ (["prefer", "dark", "mode", "decided", "postgresql"] : List String) →
      w ∈ extractKeywords "I prefer dark mode and decided to use PostgreSQL" none) := by
  refine ⟨?_, ?_, ?_⟩
  · intro q h
    unfold extractKeywords
    match h with
    | none =>
      simp only
      calc ((extractFrom q).take 10).length ≤ 10 := List.length_take_le _ _
        _ ≤ 15 := by omega
    | some hist =>
      simp only
      split
      · rw [List.length_append]
        have h1 : ((extractFrom q).take 10).length ≤ 10 := List.length_take_le _ _
        have h2 : ((extractFrom (String.intercalate " "
            (hist.drop (hist.length - 3)))).take 5).length ≤ 5 := List.length_take_le _ _
        omega
      · calc ((extractFrom q).take 10).length ≤ 10 := List.length_take_le _ _
          _ ≤ 15 := by omega
  · intro q h k hk
    unfold extractKeywords at hk
    match h with
    | none =>
      simp only at hk
      exact tokenKeep_of_mem_extractFrom (List.mem_of_mem_take hk)
    | some hist =>
      simp only at hk
      split at hk
      · rcases List.mem_append.mp hk with h1 | h2
        · exact tokenKeep_of_mem_extractFrom (List.mem_of_mem_take h1)
        · exact tokenKeep_of_mem_extractFrom (List.mem_of_mem_take h2)
      · exact tokenKeep_of_mem_extractFrom (List.mem_of_mem_take hk)
  · decide

/-- Witness for C3 at the spec's example query. -/
theorem extractKeywords_bounded_and_filtered_witness :
    (extractKeywords "I prefer dark mode and decided to use PostgreSQL" none).length ≤ 15 ∧
    (2 < "postgresql".length ∧ stopWords.contains "postgresql" = false) ∧
    "postgresql" ∈ extractKeywords "I prefer dark mode and decided to use PostgreSQL" none :=
  ⟨extractKeywords_bounded_and_filtered.1 _ none,
   extractKeywords_bounded_and_filtered.2.1
     "I prefer dark mode and decided to use PostgreSQL" none "postgresql" (by decide),
   extractKeywords_bounded_and_filtered.2.2 "postgresql" (by decide)⟩

/-- If a predicate newly accepts exactly the key `k₀` (and is unchanged on
other list members), the filtered length grows by the multiplicity of `k₀`. -/
lemma filter_length_add_count {α : Type} [DecidableEq α] {p p' : α → Bool} {k₀ : α}
    (l : List α) (h₀ : p k₀ = false) (h₀' : p' k₀ = true)
    (hk : ∀ k ∈ l, k ≠ k₀ → p' k = p k) :
    (l.filter p').length = (l.filter p).length + l.count k₀ := by
  induction l with
  | nil => simp
  | cons a xs ih =>
    have hxs : ∀ k ∈ xs, k ≠ k₀ → p' k = p k := fun k hm => hk k (List.mem_cons_of_mem a hm)
    by_cases ha : a = k₀
    · subst ha
      rw [List.filter_cons, List.filter_cons, h₀, h₀', List.count_cons_self]
      simp [ih hxs]
      omega
    · have hpa : p' a = p a := hk a (List.mem_cons_self a xs) ha
      rw [List.filter_cons, List.filter_cons, hpa, List.count_cons_of_ne (Ne.symm ha)]
      split
      · simp only [List.length_cons, ih hxs]
        omega
      · exact ih hxs

/-- C2 counterexample: the extracted keyword list can contain duplicates
(query "dark dark dark mode" yields ["dark","dark","dark","mode"]), and the
`forEach` loop scores each list ENTRY, so a memory with text "dark" at age 0
scores 10·3 + 5 = 35, not the 10·1 + 5 = 15 that "distinct extracted
keywords" predicts. -/
theorem relevanceScore_distinct_cex :
    relevanceScore (extractKeywords "dark dark dark mode" none) "dark" 0 0 = 35 ∧
    specRelevanceScore (extractKeywords "dark dark dark mode" none) "dark" 0 0 = 15 ∧
    (35 : ℚ) ≠ 15 := by
  have hk : extractKeywords "dark dark dark mode" none = ["dark", "dark", "dark", "mode"] := by
    decide
  have hf : ((["dark", "dark", "dark", "mode"] : List String).filter
      (fun k => jsIncludes (jsToLower "dark") k)).length = 3 := by decide
  have hfd : ((["dark", "dark", "dark", "mode"] : List String).dedup.filter
      (fun k => jsIncludes (jsToLower "dark") k)).length = 1 := by decide
  refine ⟨?_, ?_, by norm_num⟩
  · rw [relevanceScore, hk, hf]
    norm_num [recencyBonus, daysOld, max_def]
  · rw [specRelevanceScore, hk, hfd]
    norm_num [recencyBonus, daysOld, max_def]

/-- C2 (amended): each candidate's score is 10 per keyword-list entry —
counted with multiplicity — that appears as a case-insensitive substring of
the memory's text, plus max(0, 5 − 0.1·ageInDays); this coincides with the
distinct-keyword formula whenever the extracted list has no duplicates;
making one previously unmatched keyword match (age fixed, other keywords
unchanged) raises the score by exactly 10 times that keyword's multiplicity
(10 when it occurs once); and a memory matched on exactly one keyword entry
created exactly one day before evaluation scores 14.9. -/
theorem relevanceScore_amended :
    (∀ kws t c n, kws.Nodup →
      relevanceScore kws t c n = specRelevanceScore kws t c n) ∧
    (∀ (kws : List String) (t t' : String) (c n : Int) (k₀ : String),
      jsIncludes (jsToLower t) k₀ = false →
      jsIncludes (jsToLower t') k₀ = true →
      (∀ k ∈ kws, k ≠ k₀ → jsIncludes (jsToLower t') k = jsIncludes (jsToLower t) k) →
      relevanceScore kws t' c n = relevanceScore kws t c n + 10 * (kws.count k₀ : ℚ)) ∧
    (∀ kws t c n,
      (kws.filter (fun k => jsIncludes (jsToLower t) k)).length = 1 →
      (n - c : Int) = 86400000 →
      relevanceScore kws t c n = 149 / 10) := by
  refine ⟨?_, ?_, ?_⟩
  · intro kws t c n hd
    unfold relevanceScore specRelevanceScore
    rw [List.dedup_eq_self.mpr hd]
  · intro kws t t' c n k₀ h₀ h₀' hk
    unfold relevanceScore
    rw [filter_length_add_count kws h₀ h₀' hk]
    push_cast
    ring
  · intro kws t c n h1 h2
    unfold relevanceScore daysOld
    rw [h1, h2]
    norm_num [recencyBonus, max_def]

/-- Witness for C2 (amended) at concrete inputs. -/
theorem relevanceScore_amended_witness :
    relevanceScore ["dark"] "x y" 0 0 = specRelevanceScore ["dark"] "x y" 0 0 ∧
    relevanceScore ["dark"] "dark" 0 0 =
      relevanceScore ["dark"] "x y" 0 0 + 10 * (List.count "dark" ["dark"] : ℚ) ∧
    relevanceScore ["postgresql"] "I use PostgreSQL" 0 86400000 = 149 / 10 :=
  ⟨relevanceScore_amended.1 ["dark"] "x y" 0 0 (by decide),
   relevanceScore_amended.2.1 ["dark"] "x y" "dark" 0 0 "dark" (by decide) (by decide)
     (by decide),
   relevanceScore_amended.2.2 ["postgresql"] "I use PostgreSQL" 0 86400000 (by decide)
     (by decide)⟩

/-- C8 counterexample: for a memory whose `created_at` lies 10 days after the
evaluation instant (`ageInDays = −10`, possible under clock skew since the
code computes `Date.now() − created`), the recency bonus is
max(0, 5 − 0.1·(−10)) = 6 > 5, so the bonus does not always lie in [0, 5]:
with no matching keyword the whole score equals that bonus. -/
theorem recencyBonus_bound_cex :
    relevanceScore [] "x" 864000000 0 = 6 ∧
    recencyBonus (daysOld 864000000 0) = 6 ∧
    ¬(recencyBonus (daysOld 864000000 0) ≤ 5) := by
  have h : daysOld 864000000 0 = -10 := by
    unfold daysOld
    norm_num
  refine ⟨?_, ?_, ?_⟩
  · unfold relevanceScore
    rw [h]
    norm_num [recencyBonus, max_def]
  · rw [h]
    norm_num [recencyBonus, max_def]
  · rw [h]
    norm_num [recencyBonus, max_def]

/-- C8 (amended): the recency bonus is monotonically non-increasing in age
and non-negative everywhere; it is bounded by 5 whenever the age is
non-negative (memory not created after the evaluation instant); and every
computed relevance score is ≥ 0. -/
theorem recencyBonus_amended :
    (∀ d₁ d₂ : ℚ, d₁ ≤ d₂ → recencyBonus d₂ ≤ recencyBonus d₁) ∧
    (∀ d : ℚ, 0 ≤ recencyBonus d) ∧
    (∀ d : ℚ, 0 ≤ d → recencyBonus d ≤ 5) ∧
    (∀ kws t c n, 0 ≤ relevanceScore kws t c n) := by
  refine ⟨?_, ?_, ?_, ?_⟩
  · intro d₁ d₂ hd
    unfold recencyBonus
    exact max_le_max le_rfl (by linarith)
  · intro d
    exact le_max_left _ _
  · intro d hd
    unfold recencyBonus
    exact max_le (by norm_num) (by linarith)
  · intro kws t c n
    unfold relevanceScore
    exact add_nonneg (by positivity) (le_max_left _ _)

/-- Witness for C8 (amended) at concrete inputs. -/
theorem recencyBonus_amended_witness :
    recencyBonus 2 ≤ recencyBonus 1 ∧
    0 ≤ recencyBonus (-3) ∧
    recencyBonus 1 ≤ 5 ∧
    0 ≤ relevanceScore ["dark"] "dark mode" 0 86400000 :=
  ⟨recencyBonus_amended.1 1 2 (by decide),
   recencyBonus_amended.2.1 (-3),
   recencyBonus_amended.2.2.1 1 (by decide),
   recencyBonus_amended.2.2.2 ["dark"] "dark mode" 0 86400000⟩

/-- A successful lexical run reduces to the success body. -/
lemma contextHandler_ok {uid : String} {req : ContextRequest}
    {store : StoreQuery → Except String (List Memory)} {now : Int} {data : List Memory}
    (hq : jsFalsyStr req.query = false)
    (hok : store (buildStoreQuery uid req) = Except.ok data) :
    contextHandler uid req store now = .ok (lexicalOkBody req data now) := by
  simp only [contextHandler, hq, Bool.false_eq_true, if_false, hok]

/-- Sorting does not change the candidate count. -/
lemma lexicalRanked_length (req : ContextRequest) (data : List Memory) (now : Int) :
    (lexicalRanked req data now).length = data.length := by
  unfold lexicalRanked jsSortByScoreDesc
  rw [(List.mergeSort_perm _ _).length_eq, List.length_map]

/-- When the store honoured the fetch cap, the response-level truncation is
the identity. -/
lemma lexicalOkBody_memories_of_cap {req : ContextRequest} {data : List Memory} {now : Int}
    (hcap : data.length ≤ jsLimitOr10 req.limit) :
    (lexicalOkBody req data now).memories = lexicalRanked req data now := by
  unfold lexicalOkBody
  exact List.take_of_length_le (by rw [lexicalRanked_length]; exact hcap)

/-- `List.contains` (an abbreviation of flipped `elem`) decides membership. -/
lemma contains_eq_decide_mem (l : List String) (s : String) :
    l.contains s = decide (s ∈ l) :=
  List.elem_eq_mem s l

/-- Concrete memories used in witnesses and counterexamples. -/
def memA : Memory := ⟨"m1", "u", "We chose dark mode", "claude", "default", [], 5⟩

def memB : Memory := ⟨"m2", "u", "We chose PostgreSQL", "chatgpt", "default", [], 3⟩

/-- C1 counterexample: a `POST /context` request whose lexical retrieval
succeeds and whose caller supplied no `llm` identifier does not get
`crossLLM = false`: the JS expression `llm && …` short-circuits to
`undefined`, so the field is omitted from the JSON response. -/
theorem crossLLM_undef_cex :
    ∃ body,
      contextHandler "u" ⟨some "alpha", none, none, none, none⟩
        (fun _ => .ok [memA]) 0 = .ok body ∧
      body.crossLLM = CrossVal.undef ∧
      body.crossLLM ≠ CrossVal.bool false :=
  ⟨_, rfl, rfl, by decide⟩

/-- C1 (amended): for a successful lexical retrieval, when the caller's
declared identifier is a non-empty string the response's `crossLLM` is a
boolean that is true iff the final results carry more than one distinct
`source` and the identifier is not among them; but when the identifier is
absent (or empty) the field is not the boolean `false` — it is the falsy
identifier value itself (`undefined`, omitted from the JSON, resp. `""`). -/
theorem crossLLM_characterized (uid : String) (req : ContextRequest)
    (store : StoreQuery → Except String (List Memory)) (now : Int) (data : List Memory)
    (hq : jsFalsyStr req.query = false)
    (hok : store (buildStoreQuery uid req) = Except.ok data)
    (hcap : data.length ≤ jsLimitOr10 req.limit) :
    ∃ body, contextHandler uid req store now = .ok body ∧
      body.crossLLM = crossLLMVal req.llm body.memories ∧
      (req.llm = none → body.crossLLM = CrossVal.undef) ∧
      (req.llm = some "" → body.crossLLM = CrossVal.emptyStr) ∧
      (∀ s, req.llm = some s → s ≠ "" →
        (body.crossLLM = CrossVal.bool true ↔
          (1 < (sourcesOf body.memories).dedup.length ∧ s ∉ sourcesOf body.memories)) ∧
        ∃ b, body.crossLLM = CrossVal.bool b) := by
  refine ⟨lexicalOkBody req data now, contextHandler_ok hq hok, ?_⟩
  have hmem : (lexicalOkBody req data now).memories = lexicalRanked req data now :=
    lexicalOkBody_memories_of_cap hcap
  have hcross : (lexicalOkBody req data now).crossLLM =
      crossLLMVal req.llm (lexicalRanked req data now) := rfl
  refine ⟨by rw [hcross, hmem], ?_, ?_, ?_⟩
  · intro h
    rw [hcross, h]
    rfl
  · intro h
    rw [hcross, h]
    rfl
  · intro s hs hne
    rw [hcross, hmem, hs]
    simp only [crossLLMVal]
    rw [if_neg (by simpa [String.isEmpty_iff] using hne)]
    refine ⟨?_, _, rfl⟩
    rw [contains_eq_decide_mem]
    simp only [CrossVal.bool.injEq, Bool.and_eq_true, decide_eq_true_eq,
      Bool.not_eq_true', decide_eq_false_iff_not]

/-- Witness for C1 (amended) at a concrete request with a declared
identifier and a two-source candidate set. -/
theorem crossLLM_characterized_witness :
    ∃ body, contextHandler "u" ⟨some "alpha", some "cursor", none, none, none⟩
        (fun _ => .ok [memA, memB]) 0 = .ok body ∧
      body.crossLLM = crossLLMVal (some "cursor") body.memories ∧
      (some "cursor" = none → body.crossLLM = CrossVal.undef) ∧
      (some "cursor" = some "" → body.crossLLM = CrossVal.emptyStr) ∧
      (∀ s, some "cursor" = some s → s ≠ "" →
        (body.crossLLM = CrossVal.bool true ↔
          (1 < (sourcesOf body.memories).dedup.length ∧ s ∉ sourcesOf body.memories)) ∧
        ∃ b, body.crossLLM = CrossVal.bool b) :=
  crossLLM_characterized "u" ⟨some "alpha", some "cursor", none, none, none⟩
    (fun _ => .ok [memA, memB]) 0 [memA, memB] (by decide) rfl (by decide)

/-- Stability of the modelled JS sort: on a candidate list ordered by
`created_at` descending (the store's order), sorting by score descending
yields a list that is pairwise ordered by score descending, with equal-score
ties still ordered by `created_at` descending. -/
lemma jsSortByScoreDesc_pairwise (l : List (Memory × ℚ))
    (h : l.Pairwise (fun a b => b.1.created_at ≤ a.1.created_at)) :
    (jsSortByScoreDesc l).Pairwise
      (fun a b => b.2 ≤ a.2 ∧ (a.2 = b.2 → b.1.created_at ≤ a.1.created_at)) := by
  have htrans : ∀ a b c : Memory × ℚ,
      (fun a b : Memory × ℚ => decide (b.2 ≤ a.2)) a b →
      (fun a b : Memory × ℚ => decide (b.2 ≤ a.2)) b c →
      (fun a b : Memory × ℚ => decide (b.2 ≤ a.2)) a c := by
    intro a b c hab hbc
    simp only [decide_eq_true_eq] at *
    exact le_trans hbc hab
  have htotal : ∀ a b : Memory × ℚ,
      ((fun a b : Memory × ℚ => decide (b.2 ≤ a.2)) a b
        || (fun a b : Memory × ℚ => decide (b.2 ≤ a.2)) b a) = true := by
    intro a b
    simp only [Bool.or_eq_true, decide_eq_true_eq]
    exact le_total b.2 a.2
  have hidx : ∀ p ∈ l.enum, ∀ q ∈ l.enum, p.1 ≤ q.1 →
      q.2.1.created_at ≤ p.2.1.created_at := by
    intro p hp q hq hpq
    obtain ⟨i, pa⟩ := p
    obtain ⟨j, qa⟩ := q
    simp only at hpq ⊢
    rw [List.mem_enum_iff_getElem?] at hp hq
    obtain ⟨hp1, hp2⟩ := List.getElem?_eq_some_iff.mp hp
    obtain ⟨hq1, hq2⟩ := List.getElem?_eq_some_iff.mp hq
    rcases Nat.lt_or_ge i j with hlt | hge
    · have := List.pairwise_iff_getElem.mp h i j hp1 hq1 hlt
      rw [hp2, hq2] at this
      exact this
    · have hij : i = j := Nat.le_antisymm hpq hge
      subst hij
      have hpa : pa = qa := hp2.symm.trans hq2
      rw [hpa]
  have hrw : jsSortByScoreDesc l =
      (List.mergeSort l.enum (List.enumLE (fun a b => decide (b.2 ≤ a.2)))).map (·.2) := by
    rw [jsSortByScoreDesc, List.mergeSort_enum]
  have hsorted := List.sorted_mergeSort
    (List.enumLE_trans htrans) (List.enumLE_total htotal) l.enum
  rw [hrw, List.pairwise_map]
  refine hsorted.imp_of_mem ?_
  intro a b ha hb henum
  have ha' : a ∈ l.enum := List.mem_mergeSort.mp ha
  have hb' : b ∈ l.enum := List.mem_mergeSort.mp hb
  simp only [List.enumLE] at henum
  by_cases h1 : (b.2.2 ≤ a.2.2)
  · refine ⟨h1, ?_⟩
    intro heq
    have h2 : (a.2.2 ≤ b.2.2) := le_of_eq heq
    rw [if_pos (decide_eq_true h1), if_pos (decide_eq_true h2)] at henum
    exact hidx a ha' b hb' (by simpa using henum)
  · rw [if_neg (by simpa using h1)] at henum
    exact absurd henum (by simp)

/-- C4: for every successful lexical `POST /context` response over a
candidate set in the store's recency order, the returned memories list is
sorted by relevance score descending (score[i] ≥ score[j] for i before j),
and candidates with equal score keep the deterministic most-recent-first
order. -/
theorem ranking_sorted (uid : String) (req : ContextRequest)
    (store : StoreQuery → Except String (List Memory)) (now : Int) (data : List Memory)
    (hq : jsFalsyStr req.query = false)
    (hok : store (buildStoreQuery uid req) = Except.ok data)
    (hrec : data.Pairwise (fun a b => b.created_at ≤ a.created_at)) :
    ∃ body, contextHandler uid req store now = .ok body ∧
      body.memories.Pairwise
        (fun a b => b.2 ≤ a.2 ∧ (a.2 = b.2 → b.1.created_at ≤ a.1.created_at)) := by
  refine ⟨_, contextHandler_ok hq hok, ?_⟩
  have hscored : (data.map (fun mem =>
      (mem, relevanceScore (lexicalKeywords req) mem.text mem.created_at now))).Pairwise
      (fun a b => b.1.created_at ≤ a.1.created_at) := by
    rw [List.pairwise_map]
    exact hrec
  have hranked := jsSortByScoreDesc_pairwise _ hscored
  exact List.Pairwise.sublist (List.take_sublist _ _) hranked

/-- Witness for C4 at a concrete two-candidate run. -/
theorem ranking_sorted_witness :
    ∃ body, contextHandler "u" ⟨some "alpha", none, none, none, none⟩
        (fun _ => .ok [memA, memB]) 0 = .ok body ∧
      body.memories.Pairwise
        (fun a b => b.2 ≤ a.2 ∧ (a.2 = b.2 → b.1.created_at ≤ a.1.created_at)) :=
  ranking_sorted "u" ⟨some "alpha", none, none, none, none⟩
    (fun _ => .ok [memA, memB]) 0 [memA, memB] (by decide) rfl (by decide)

/-- JS `m || fallback` keeps a non-empty upstream message. -/
lemma jsOrStr_of_ne {m : String} (d : String) (h : m ≠ "") : jsOrStr m d = m := by
  unfold jsOrStr
  rw [if_neg (by simpa [String.isEmpty_iff] using h)]

/-- C5: `POST /context` without `query` and `POST /memories` without `text`
each return HTTP 400 with the `{error, message}` envelope and the response
does not depend on any external oracle (so no external call can influence
it); a store failure in `/context`, an embedding-provider failure in
`/memories`, and an insert failure in `/memories` are each surfaced as
HTTP 500 with the same envelope shape carrying the upstream message. -/
theorem validation_and_upstream_errors :
    (∀ uid req store store' now, jsFalsyStr req.query = true →
      contextHandler uid req store now = .err 400 ⟨"Bad Request", "Query is required."⟩ ∧
      contextHandler uid req store now = contextHandler uid req store' now) ∧
    (∀ uid req llmO embedO insertO llmO' embedO' insertO', jsFalsyStr req.text = true →
      createMemoryHandler uid req llmO embedO insertO =
        .err 400 ⟨"Bad Request", "Text is required."⟩ ∧
      createMemoryHandler uid req llmO embedO insertO =
        createMemoryHandler uid req llmO' embedO' insertO') ∧
    (∀ uid req store now m, jsFalsyStr req.query = false → m ≠ "" →
      store (buildStoreQuery uid req) = .error m →
      contextHandler uid req store now = .err 500 ⟨"Internal Server Error", m⟩) ∧
    (∀ uid req llmO embedO insertO m, jsFalsyStr req.text = false → m ≠ "" →
      embedO (extractKeyInfo (req.text.getD "") llmO) = .error m →
      createMemoryHandler uid req llmO embedO insertO =
        .err 500 ⟨"Internal Server Error", m⟩) ∧
    (∀ uid req llmO embedO insertO emb m, jsFalsyStr req.text = false → m ≠ "" →
      embedO (extractKeyInfo (req.text.getD "") llmO) = Except.ok emb →
      insertO { user_id := uid
                text := extractKeyInfo (req.text.getD "") llmO
                source := jsOrStrOpt req.source "api"
                project_id := jsOrStrOpt req.project_id "default"
                tags := req.tags.getD []
                original_text := req.text.getD ""
                embedding := emb } = .error m →
      createMemoryHandler uid req llmO embedO insertO =
        .err 500 ⟨"Internal Server Error", m⟩) := by
  refine ⟨?_, ?_, ?_, ?_, ?_⟩
  · intro uid req store store' now hq
    constructor <;> simp only [contextHandler, hq, if_true]
  · intro uid req llmO embedO insertO llmO' embedO' insertO' ht
    constructor <;> simp only [createMemoryHandler, ht, if_true]
  · intro uid req store now m hq hm hstore
    simp only [contextHandler, hq, Bool.false_eq_true, if_false, hstore,
      jsOrStr_of_ne _ hm]
  · intro uid req llmO embedO insertO m ht hm hembed
    simp only [createMemoryHandler, ht, Bool.false_eq_true, if_false, hembed,
      jsOrStr_of_ne _ hm]
  · intro uid req llmO embedO insertO emb m ht hm hembed hins
    simp only [createMemoryHandler, ht, Bool.false_eq_true, if_false, hembed, hins,
      jsOrStr_of_ne _ hm]

/-- Witness for C5 at concrete requests and oracles. -/
theorem validation_and_upstream_errors_witness :
    (contextHandler "u" ⟨none, none, none, none, none⟩ (fun _ => .ok []) 0 =
        .err 400 ⟨"Bad Request", "Query is required."⟩ ∧
      contextHandler "u" ⟨none, none, none, none, none⟩ (fun _ => .ok []) 0 =
        contextHandler "u" ⟨none, none, none, none, none⟩ (fun _ => .error "boom") 0) ∧
    (createMemoryHandler "u" ⟨none, none, none, none⟩ (Except.ok "e")
        (fun _ => .ok []) (fun _ => .error "x") =
        .err 400 ⟨"Bad Request", "Text is required."⟩ ∧
      createMemoryHandler "u" ⟨none, none, none, none⟩ (Except.ok "e")
        (fun _ => .ok []) (fun _ => .error "x") =
      createMemoryHandler "u" ⟨none, none, none, none⟩ (Except.error "f")
        (fun _ => .error "g") (fun _ => .ok memA)) ∧
    contextHandler "u" ⟨some "alpha", none, none, none, none⟩
      (fun _ => .error "db down") 0 = .err 500 ⟨"Internal Server Error", "db down"⟩ ∧
    createMemoryHandler "u" ⟨some "note", none, none, none⟩ (Except.error "llm fail")
      (fun _ => .error "embedding down") (fun _ => .error "x") =
      .err 500 ⟨"Internal Server Error", "embedding down"⟩ ∧
    createMemoryHandler "u" ⟨some "note", none, none, none⟩ (Except.ok "key info")
      (fun _ => .ok [1]) (fun _ => .error "insert down") =
      .err 500 ⟨"Internal Server Error", "insert down"⟩ :=
  ⟨validation_and_upstream_errors.1 "u" ⟨none, none, none, none, none⟩
      (fun _ => .ok []) (fun _ => .error "boom") 0 rfl,
   validation_and_upstream_errors.2.1 "u" ⟨none, none, none, none⟩
      (Except.ok "e") (fun _ => .ok []) (fun _ => .error "x")
      (Except.error "f") (fun _ => .error "g") (fun _ => .ok memA) rfl,
   validation_and_upstream_errors.2.2.1 "u" ⟨some "alpha", none, none, none, none⟩
      (fun _ => .error "db down") 0 "db down" rfl (by decide) rfl,
   validation_and_upstream_errors.2.2.2.1 "u" ⟨some "note", none, none, none⟩
      (Except.error "llm fail") (fun _ => .error "embedding down")
      (fun _ => .error "x") "embedding down" rfl (by decide) rfl,
   validation_and_upstream_errors.2.2.2.2 "u" ⟨some "note", none, none, none⟩
      (Except.ok "key info") (fun _ => .ok [1]) (fun _ => .error "insert down")
      [1] "insert down" rfl (by decide) rfl rfl⟩

/-- C6: in vector-mode retrieval (`/memories/search` and
`/memories/context`), a failing embedding-provider call or a failing store
RPC aborts the whole request with a single 500 error response carrying no
memories; when the embedding call fails the response does not depend on the
store oracle at all — there is no fallback to lexical retrieval and no
partial result. -/
theorem vector_mode_no_fallback :
    (∀ uid q limO embedO rpcO rpcO' m, jsFalsyStr q = false →
      embedO (q.getD "") = .error m →
      (∃ b, searchHandler uid q limO embedO rpcO = .err 500 b) ∧
      searchHandler uid q limO embedO rpcO = searchHandler uid q limO embedO rpcO' ∧
      (∃ b, memContextHandler uid q limO embedO rpcO = .err 500 b) ∧
      memContextHandler uid q limO embedO rpcO =
        memContextHandler uid q limO embedO rpcO') ∧
    (∀ uid q limO embedO rpcO emb m, jsFalsyStr q = false →
      embedO (q.getD "") = Except.ok emb →
      rpcO emb (limO.getD 10) uid = .error m →
      (∃ b, searchHandler uid q limO embedO rpcO = .err 500 b) ∧
      (∃ b, memContextHandler uid q limO embedO rpcO = .err 500 b)) := by
  refine ⟨?_, ?_⟩
  · intro uid q limO embedO rpcO rpcO' m hq hembed
    have hs : searchHandler uid q limO embedO rpcO =
        .err 500 ⟨"Internal Server Error", jsOrStr m "Failed to search memories."⟩ := by
      simp only [searchHandler, hq, Bool.false_eq_true, if_false, hembed]
    have hs' : searchHandler uid q limO embedO rpcO' =
        .err 500 ⟨"Internal Server Error", jsOrStr m "Failed to search memories."⟩ := by
      simp only [searchHandler, hq, Bool.false_eq_true, if_false, hembed]
    have hc : memContextHandler uid q limO embedO rpcO =
        .err 500 ⟨"Internal Server Error", jsOrStr m "Failed to generate context."⟩ := by
      simp only [memContextHandler, hq, Bool.false_eq_true, if_false, hembed]
    have hc' : memContextHandler uid q limO embedO rpcO' =
        .err 500 ⟨"Internal Server Error", jsOrStr m "Failed to generate context."⟩ := by
      simp only [memContextHandler, hq, Bool.false_eq_true, if_false, hembed]
    exact ⟨⟨_, hs⟩, hs.trans hs'.symm, ⟨_, hc⟩, hc.trans hc'.symm⟩
  · intro uid q limO embedO rpcO emb m hq hembed hrpc
    have hs : searchHandler uid q limO embedO rpcO =
        .err 500 ⟨"Internal Server Error", jsOrStr m "Failed to search memories."⟩ := by
      simp only [searchHandler, hq, Bool.false_eq_true, if_false, hembed, hrpc]
    have hc : memContextHandler uid q limO embedO rpcO =
        .err 500 ⟨"Internal Server Error", jsOrStr m "Failed to generate context."⟩ := by
      simp only [memContextHandler, hq, Bool.false_eq_true, if_false, hembed, hrpc]
    exact ⟨⟨_, hs⟩, ⟨_, hc⟩⟩

/-- Witness for C6 at concrete failures. -/
theorem vector_mode_no_fallback_witness :
    ((∃ b, searchHandler "u" (some "q") none (fun _ => .error "emb down")
        (fun _ _ _ => .ok [memA]) = .err 500 b) ∧
      searchHandler "u" (some "q") none (fun _ => .error "emb down")
          (fun _ _ _ => .ok [memA]) =
        searchHandler "u" (some "q") none (fun _ => .error "emb down")
          (fun _ _ _ => .ok [memB]) ∧
      (∃ b, memContextHandler "u" (some "q") none (fun _ => .error "emb down")
        (fun _ _ _ => .ok [memA]) = .err 500 b) ∧
      memContextHandler "u" (some "q") none (fun _ => .error "emb down")
          (fun _ _ _ => .ok [memA]) =
        memContextHandler "u" (some "q") none (fun _ => .error "emb down")
          (fun _ _ _ => .ok [memB])) ∧
    ((∃ b, searchHandler "u" (some "q") none (fun _ => .ok [1])
        (fun _ _ _ => .error "rpc down") = .err 500 b) ∧
      (∃ b, memContextHandler "u" (some "q") none (fun _ => .ok [1])
        (fun _ _ _ => .error "rpc down") = .err 500 b)) :=
  ⟨vector_mode_no_fallback.1 "u" (some "q") none (fun _ => .error "emb down")
      (fun _ _ _ => .ok [memA]) (fun _ _ _ => .ok [memB]) "emb down" rfl rfl,
   vector_mode_no_fallback.2 "u" (some "q") none (fun _ => .ok [1])
      (fun _ _ _ => .error "rpc down") [1] "rpc down" rfl rfl rfl⟩

/-- C7: the text-only endpoints leak nothing but `text`: a successful
`GET /memories/context/all` response is exactly the `text` projection of the
requested offset/limit window of the recency-ordered corpus (and that window
is still in recency order), and a successful `GET /memories/context`
response is exactly the `text` projection of the store's result list. -/
theorem textonly_output :
    (∀ uid (corpus : List Memory) limO offO
        (store : Nat → Nat → Except String (List Memory)),
      corpus.Pairwise (fun a b => b.created_at ≤ a.created_at) →
      store (offO.getD 0) (limO.getD 100) =
        Except.ok ((corpus.drop (offO.getD 0)).take (limO.getD 100)) →
      memContextAllHandler uid limO offO store =
        .okAll (((corpus.drop (offO.getD 0)).take (limO.getD 100)).map (·.text))
          ((((corpus.drop (offO.getD 0)).take (limO.getD 100)).map (·.text)).length)
          (limO.getD 100) (offO.getD 0) ∧
      ((corpus.drop (offO.getD 0)).take (limO.getD 100)).Pairwise
        (fun a b => b.created_at ≤ a.created_at)) ∧
    (∀ uid q limO embedO rpcO emb (data : List Memory), jsFalsyStr q = false →
      embedO (q.getD "") = Except.ok emb →
      rpcO emb (limO.getD 10) uid = Except.ok data →
      memContextHandler uid q limO embedO rpcO =
        .ok (data.map (·.text)) ((data.map (·.text)).length)) := by
  refine ⟨?_, ?_⟩
  · intro uid corpus limO offO store hsort hstore
    constructor
    · simp only [memContextAllHandler, hstore]
    · exact List.Pairwise.sublist
        ((List.take_sublist _ _).trans (List.drop_sublist _ _)) hsort
  · intro uid q limO embedO rpcO emb data hq hembed hrpc
    simp only [memContextHandler, hq, Bool.false_eq_true, if_false, hembed, hrpc]

/-- Witness for C7 at a concrete corpus and store. -/
theorem textonly_output_witness :
    (memContextAllHandler "u" none none
        (fun off lim => .ok (([memA, memB].drop off).take lim)) =
        .okAll ((([memA, memB].drop 0).take 100).map (·.text))
          (((([memA, memB].drop 0).take 100).map (·.text)).length) 100 0 ∧
      (([memA, memB].drop 0).take 100).Pairwise
        (fun a b => b.created_at ≤ a.created_at)) ∧
    memContextHandler "u" (some "q") none (fun _ => .ok [1])
        (fun _ _ _ => .ok [memB]) =
      .ok ([memB].map (·.text)) (([memB].map (·.text)).length) :=
  ⟨textonly_output.1 "u" [memA, memB] none none
      (fun off lim => .ok (([memA, memB].drop off).take lim)) (by decide) rfl,
   textonly_output.2 "u" (some "q") none (fun _ => .ok [1])
      (fun _ _ _ => .ok [memB]) [1] [memB] rfl rfl rfl⟩

/-- C9: the lexical path is deterministic — identical request fields, an
identical candidate set answered by the store for the built query, and the
same evaluation instant produce the identical response (keywords, scores,
ordering, crossLLM and count included). -/
theorem lexical_deterministic (uid : String) (req : ContextRequest)
    (store₁ store₂ : StoreQuery → Except String (List Memory)) (now : Int)
    (h : store₁ (buildStoreQuery uid req) = store₂ (buildStoreQuery uid req)) :
    contextHandler uid req store₁ now = contextHandler uid req store₂ now := by
  unfold contextHandler
  rw [h]

/-- Witness for C9: two syntactically different stores answering alike. -/
theorem lexical_deterministic_witness :
    contextHandler "u" ⟨some "alpha", none, none, none, none⟩
        (fun _ => .ok [memA]) 0 =
      contextHandler "u" ⟨some "alpha", none, none, none, none⟩
        (fun q => if q.limit = 0 then .error "unreachable" else .ok [memA]) 0 :=
  lexical_deterministic "u" ⟨some "alpha", none, none, none, none⟩ _ _ 0 rfl

/-- C10: any falsy `limit` (absent or 0) makes the handler use the default
10 both as the store fetch cap and as the response truncation; the two caps
are always the same number, so when the store honours the fetch cap the
final truncation removes nothing: the response carries the whole candidate
set (in particular `limit: 0` yields up to 10 memories, not zero). -/
theorem limit_defaulting (uid : String) (req : ContextRequest)
    (store : StoreQuery → Except String (List Memory)) (now : Int) (data : List Memory)
    (hq : jsFalsyStr req.query = false)
    (hok : store (buildStoreQuery uid req) = Except.ok data)
    (hcap : data.length ≤ (buildStoreQuery uid req).limit) :
    ((req.limit = none ∨ req.limit = some 0) → (buildStoreQuery uid req).limit = 10) ∧
    (buildStoreQuery uid req).limit = jsLimitOr10 req.limit ∧
    ∃ body, contextHandler uid req store now = .ok body ∧
      body.memories.length = data.length ∧
      body.count = data.length := by
  have hbq : (buildStoreQuery uid req).limit = jsLimitOr10 req.limit := rfl
  refine ⟨?_, hbq, lexicalOkBody req data now, contextHandler_ok hq hok, ?_, ?_⟩
  · rintro (h | h) <;> simp [buildStoreQuery, jsLimitOr10, h]
  · rw [lexicalOkBody_memories_of_cap (hbq ▸ hcap), lexicalRanked_length]
  · show (lexicalRanked req data now).length = data.length
    exact lexicalRanked_length req data now

/-- Witness for C10 with `limit: 0` and two stored candidates. -/
theorem limit_defaulting_witness :
    (((some 0 : Option Nat) = none ∨ (some 0 : Option Nat) = some 0) →
      (buildStoreQuery "u" ⟨some "alpha", none, some 0, none, none⟩).limit = 10) ∧
    (buildStoreQuery "u" ⟨some "alpha", none, some 0, none, none⟩).limit =
      jsLimitOr10 (some 0) ∧
    ∃ body, contextHandler "u" ⟨some "alpha", none, some 0, none, none⟩
        (fun _ => .ok [memA, memB]) 0 = .ok body ∧
      body.memories.length = [memA, memB].length ∧
      body.count = [memA, memB].length :=
  limit_defaulting "u" ⟨some "alpha", none, some 0, none, none⟩
    (fun _ => .ok [memA, memB]) 0 [memA, memB] (by decide) rfl (by decide)

end RecallBricks
